import Mathlib

/-!
Verification of the `threading::BasicThread` lifecycle abstraction
(src/src/threading/BasicThread.h).

The repository ships only the header.  The inline accessors (`Name`,
`Terminating`, `Killed`) and the field declarations are embedded directly
from the header; all method bodies live in a `BasicThread.cc` that is not
part of the sources, so the lifecycle operations are modelled from the
specification, as marked on each definition.
-/

namespace Threading

/--
State of one `BasicThread` instance.  The boolean flags `started`,
`terminating` and `killed` and the `name` field come from the header
(BasicThread.h lines 196-200).  The remaining fields model, from the
specification, the observable effects of the missing method bodies:
`contexts` counts spawned OS execution contexts, `doneFired` records that
the worker-side completion hook has run, `gateLocked` models the
termination gate (`terminate` mutex, header line 204), `joined` records a
completed join, `forced` records forced termination by the kill path,
`prepareStopCalls` counts invocations of the owner-side prepare-stop hook,
and `fmtBuf`/`strerrBuf` are the instance-owned scratch buffers (header
lines 207-211).
-/
structure BasicThread where
  name : String
  started : Bool
  terminating : Bool
  killed : Bool
  contexts : Nat
  doneFired : Bool
  gateLocked : Bool
  joined : Bool
  forced : Bool
  prepareStopCalls : Nat
  fmtBuf : String
  strerrBuf : String
deriving Repr, DecidableEq

/-- Decimal digits of `n`, least significant first, via structural fuel
recursion so that the kernel can evaluate it. -/
def decDigitsAux : Nat → Nat → List Nat
  | _, 0 => []
  | 0, _ + 1 => []
  | fuel + 1, n + 1 => ((n + 1) % 10) :: decDigitsAux fuel ((n + 1) / 10)

/-- Decimal digits of `n`, least significant first. -/
def decDigits (n : Nat) : List Nat :=
  decDigitsAux n n

/-- Decimal string representation of a natural number. -/
def decimalRepr (n : Nat) : String :=
  String.mk ((decDigits n).reverse.map Nat.digitChar)

/-- Modelled from the spec: the default display name generated for an
instance from the process-wide monotonically increasing `thread_counter`
(header line 213) when no explicit name was set. -/
def defaultName (c : Nat) : String :=
  "thread-" ++ decimalRepr c

/-- Modelled from the spec: construction of an unnamed instance.  No
execution context is spawned; all flags start false; the process-wide
counter is incremented and generates the default name.  Returns the new
instance together with the updated counter. -/
def mkThread (counter : Nat) : BasicThread × Nat :=
  ({ name := defaultName (counter + 1)
     started := false
     terminating := false
     killed := false
     contexts := 0
     doneFired := false
     gateLocked := false
     joined := false
     forced := false
     prepareStopCalls := 0
     fmtBuf := ""
     strerrBuf := "" }, counter + 1)

/-- Embedded from the header (line 44): `Name()` returns the stored name
and, being `const`, leaves the instance unchanged. -/
def Name (s : BasicThread) : String × BasicThread :=
  (s.name, s)

/-- Embedded from the header (line 103): `Terminating()` returns the
stored `terminating` flag and leaves the instance unchanged. -/
def Terminating (s : BasicThread) : Bool × BasicThread :=
  (s.terminating, s)

/-- Embedded from the header (line 110): `Killed()` returns the stored
`killed` flag and leaves the instance unchanged. -/
def Killed (s : BasicThread) : Bool × BasicThread :=
  (s.killed, s)

/-- Modelled from the spec: owner-only `SetName`, called strictly before
`Start()`. -/
def SetName (s : BasicThread) (n : String) : BasicThread :=
  { s with name := n }

/-- Modelled from the spec: `Start()` is valid only from the created
state; it spawns the execution context running the entry routine, acquires
the termination gate and marks the instance started.  A second call, from
any state reached after creation, is a no-op. -/
def Start (s : BasicThread) : BasicThread :=
  if s.started then s
  else { s with started := true, contexts := s.contexts + 1, gateLocked := true }

/-- Modelled from the spec: `PrepareStop()` runs the owner-side
preparation hook; it sets no flag observable by the worker and is a no-op
if `Start()` was never called. -/
def PrepareStop (s : BasicThread) : BasicThread :=
  if s.started then { s with prepareStopCalls := s.prepareStopCalls + 1 } else s

/-- Modelled from the spec: `Stop()` sets `terminating := true` without
blocking and without forcing the worker to exit; it is a no-op if
`Start()` was never called. -/
def Stop (s : BasicThread) : BasicThread :=
  if s.started then { s with terminating := true } else s

/-- Modelled from the spec: `Kill()` sets `killed := true` and
`terminating := true`, then forcibly terminates the underlying execution
context; valid from any state after `Start()`. -/
def Kill (s : BasicThread) : BasicThread :=
  if s.started then { s with killed := true, terminating := true, forced := true } else s

/-- Modelled from the spec: the worker-side completion hook `Done()`,
invoked by the trampoline after the entry routine returns; it signals the
termination gate. -/
def Done (s : BasicThread) : BasicThread :=
  { s with doneFired := true, gateLocked := false }

/-- Modelled from the spec: the state change performed by `Join()` once
the execution context has fully exited; joining a never-started instance
is a no-op.  The blocking behaviour of `Join()` is modelled by the
enabledness condition of `Step.join` below. -/
def Join (s : BasicThread) : BasicThread :=
  if s.started then { s with joined := true } else s

/-- Lifecycle events: the owner-side calls plus the worker-side
completion hook. -/
inductive Event where
  | startE
  | prepareStopE
  | stopE
  | killE
  | joinE
  | doneE
deriving Repr, DecidableEq

/-- Modelled from the spec: one observable lifecycle step.  Owner calls
may fire in any state (misuse is a no-op inside the operation).  `joinE`
is a completed `Join()`: it can fire only when there is nothing to wait
for (never started) or the completion hook has signalled the termination
gate — this is how the model expresses that `Join()` blocks.  `doneE` is
the worker's completion hook and requires a running context. -/
inductive Step : BasicThread → Event → BasicThread → Prop where
  | start (s : BasicThread) : Step s Event.startE (Start s)
  | prepareStop (s : BasicThread) : Step s Event.prepareStopE (PrepareStop s)
  | stop (s : BasicThread) : Step s Event.stopE (Stop s)
  | kill (s : BasicThread) : Step s Event.killE (Kill s)
  | join (s : BasicThread) (h : s.started = false ∨ s.doneFired = true) :
      Step s Event.joinE (Join s)
  | done (s : BasicThread) (h : s.started = true) : Step s Event.doneE (Done s)

/-- A finite execution: a sequence of lifecycle steps. -/
inductive Trace : BasicThread → List Event → BasicThread → Prop where
  | nil (s : BasicThread) : Trace s [] s
  | cons (s s' s'' : BasicThread) (e : Event) (es : List Event)
      (hstep : Step s e s') (htail : Trace s' es s'') : Trace s (e :: es) s''

/-- Each single lifecycle step preserves a true `terminating`, `killed` or
`doneFired` flag. -/
theorem step_flags_mono {s s' : BasicThread} {e : Event} (h : Step s e s') :
    (s.terminating = true → s'.terminating = true) ∧
    (s.killed = true → s'.killed = true) ∧
    (s.doneFired = true → s'.doneFired = true) := by
  cases h with
  | start => refine ⟨?_, ?_, ?_⟩ <;> (cases hs : s.started <;> simp [Start, hs])
  | prepareStop => refine ⟨?_, ?_, ?_⟩ <;> (cases hs : s.started <;> simp [PrepareStop, hs])
  | stop => refine ⟨?_, ?_, ?_⟩ <;> (cases hs : s.started <;> simp [Stop, hs])
  | kill => refine ⟨?_, ?_, ?_⟩ <;> (cases hs : s.started <;> simp [Kill, hs])
  | join h => refine ⟨?_, ?_, ?_⟩ <;> (cases hs : s.started <;> simp [Join, hs])
  | done h => refine ⟨?_, ?_, ?_⟩ <;> simp [Done]

/-- Over a whole trace, a true `terminating`, `killed` or `doneFired`
flag stays true. -/
theorem trace_flags_mono {s s' : BasicThread} {es : List Event} (t : Trace s es s') :
    (s.terminating = true → s'.terminating = true) ∧
    (s.killed = true → s'.killed = true) ∧
    (s.doneFired = true → s'.doneFired = true) := by
  induction t with
  | nil s => exact ⟨id, id, id⟩
  | cons s s' s'' e es hstep htail ih =>
    obtain ⟨h1, h2, h3⟩ := step_flags_mono hstep
    exact ⟨fun h => ih.1 (h1 h), fun h => ih.2.1 (h2 h), fun h => ih.2.2 (h3 h)⟩

/-- C1: over every sequence of lifecycle steps, the flags read by
`Terminating()` and `Killed()` are monotonic — once a read observes
`true`, every read after any further steps also returns `true`. -/
theorem flags_monotonic_over_traces (s s' : BasicThread) (es : List Event)
    (h : Trace s es s') :
    ((Terminating s).fst = true → (Terminating s').fst = true) ∧
    ((Killed s).fst = true → (Killed s').fst = true) :=
  ⟨(trace_flags_mono h).1, (trace_flags_mono h).2.1⟩

/-- C1 witness: a concrete trace — stop an instance, then kill it — on
which the `terminating` flag, once observed true, is still true later. -/
theorem flags_monotonic_over_traces_witness :
    (Terminating (Stop (Start (mkThread 0).fst))).fst = true ∧
    (Terminating (Kill (Stop (Start (mkThread 0).fst)))).fst = true :=
  ⟨rfl,
   (flags_monotonic_over_traces (Stop (Start (mkThread 0).fst))
      (Kill (Stop (Start (mkThread 0).fst))) [Event.killE]
      (Trace.cons _ _ _ _ _ (Step.kill _) (Trace.nil _))).1 rfl⟩

/-- C2: on any started instance, `Kill()` sets both `killed` and
`terminating`: afterwards `Killed()` and `Terminating()` both return
true, the `terminating` flag agrees with the one `Stop()` would have set,
and the underlying execution context is forcibly terminated. -/
theorem kill_sets_killed_and_terminating (s : BasicThread) (h : s.started = true) :
    (Killed (Kill s)).fst = true ∧
    (Terminating (Kill s)).fst = true ∧
    (Terminating (Kill s)).fst = (Terminating (Stop s)).fst ∧
    (Kill s).forced = true := by
  simp [Kill, Stop, Killed, Terminating, h]

/-- C2 witness: `Kill()` on a freshly started instance. -/
theorem kill_sets_killed_and_terminating_witness :
    (Start (mkThread 0).fst).started = true ∧
    (Killed (Kill (Start (mkThread 0).fst))).fst = true :=
  ⟨rfl, (kill_sets_killed_and_terminating (Start (mkThread 0).fst) rfl).1⟩

/-- `Start()` on an already-started instance is a no-op. -/
theorem start_noop_of_started (s : BasicThread) (h : s.started = true) : Start s = s := by
  simp [Start, h]

/-- After `Start()` the instance is started. -/
theorem started_Start (s : BasicThread) : (Start s).started = true := by
  cases hs : s.started <;> simp [Start, hs]

/-- Iterating `Start` on a started instance changes nothing. -/
theorem iterate_Start_of_started (s : BasicThread) (h : s.started = true) (k : Nat) :
    Nat.iterate Start k s = s := by
  induction k with
  | zero => rfl
  | succ k ih => rw [Function.iterate_succ_apply, start_noop_of_started s h]; exact ih

/-- C3: calling `Start()` N > 0 times on a freshly constructed instance
spawns exactly one execution context, and the state after N calls equals
the state after the first call — every later call is a no-op. -/
theorem start_spawns_exactly_one_context (c n : Nat) (hn : 0 < n) :
    (Nat.iterate Start n (mkThread c).fst).contexts = 1 ∧
    Nat.iterate Start n (mkThread c).fst = Start (mkThread c).fst := by
  cases n with
  | zero => cases hn
  | succ k =>
    have hiter : Nat.iterate Start (k + 1) (mkThread c).fst = Start (mkThread c).fst := by
      rw [Function.iterate_succ_apply]
      exact iterate_Start_of_started _ (started_Start _) k
    refine ⟨?_, hiter⟩
    rw [hiter]
    rfl

/-- C3 witness: three `Start()` calls on a fresh instance leave exactly
one execution context. -/
theorem start_spawns_exactly_one_context_witness :
    0 < 3 ∧ (Nat.iterate Start 3 (mkThread 0).fst).contexts = 1 :=
  ⟨by decide, (start_spawns_exactly_one_context 0 3 (by decide)).1⟩

/-- C4: lifecycle calls without a meaningful effect are silent no-ops:
`PrepareStop()` and `Stop()` before `Start()` leave the state unchanged,
`Join()` on a never-started instance returns immediately with the state
unchanged (the `joinE` step is enabled at once, with no wait on the
termination gate), and `Join()` twice equals `Join()` once. -/
theorem lifecycle_misuse_is_noop (s : BasicThread) (h : s.started = false) :
    PrepareStop s = s ∧ Stop s = s ∧ Join s = s ∧
    Step s Event.joinE s ∧
    ∀ t : BasicThread, Join (Join t) = Join t := by
  refine ⟨by simp [PrepareStop, h], by simp [Stop, h], by simp [Join, h], ?_, ?_⟩
  · have hj : Step s Event.joinE (Join s) := Step.join s (Or.inl h)
    have hEq : Join s = s := by simp [Join, h]
    rw [hEq] at hj
    exact hj
  · intro t
    cases ht : t.started <;> simp [Join, ht]

/-- C4 witness: the no-op equalities at a freshly constructed,
never-started instance. -/
theorem lifecycle_misuse_is_noop_witness :
    (mkThread 0).fst.started = false ∧ Stop (mkThread 0).fst = (mkThread 0).fst :=
  ⟨rfl, (lifecycle_misuse_is_noop (mkThread 0).fst rfl).2.1⟩

/-- Any step other than the completion hook leaves `doneFired`
unchanged. -/
theorem step_doneFired_of_ne {s s' : BasicThread} {e : Event} (h : Step s e s')
    (hne : e ≠ Event.doneE) : s'.doneFired = s.doneFired := by
  cases h with
  | start => cases hs : s.started <;> simp [Start, hs]
  | prepareStop => cases hs : s.started <;> simp [PrepareStop, hs]
  | stop => cases hs : s.started <;> simp [Stop, hs]
  | kill => cases hs : s.started <;> simp [Kill, hs]
  | join h => cases hs : s.started <;> simp [Join, hs]
  | done h => exact absurd rfl hne

/-- If `doneFired` went from false to true along a trace, the completion
hook fired somewhere in it. -/
theorem doneE_mem_of_doneFired {s0 s1 : BasicThread} {es : List Event}
    (t : Trace s0 es s1) :
    s0.doneFired = false → s1.doneFired = true → Event.doneE ∈ es := by
  induction t with
  | nil s => intro h0 h1; simp [h0] at h1
  | cons s s' s'' e es hstep htail ih =>
    intro h0 h1
    by_cases he : e = Event.doneE
    · rw [he]; exact List.mem_cons_self _ _
    · exact List.mem_cons_of_mem _ (ih (by rw [step_doneFired_of_ne hstep he, h0]) h1)

/-- C5: `Join()` never returns before the completion hook `Done()` has
fired on a started instance: in every execution that starts with the hook
not yet fired and ends with a completed `joinE` step on a started
instance, `doneE` occurs in the preceding trace — whether exit was
cooperative or via `Kill()`. -/
theorem done_precedes_join_return (s0 s1 s2 : BasicThread) (es : List Event)
    (h0 : s0.doneFired = false) (hs : s1.started = true)
    (t : Trace s0 es s1) (hj : Step s1 Event.joinE s2) :
    Event.doneE ∈ es := by
  cases hj with
  | join h =>
    cases h with
    | inl hfalse => rw [hs] at hfalse; cases hfalse
    | inr hdone => exact doneE_mem_of_doneFired t h0 hdone

/-- C5 witness: a started instance whose worker runs the completion hook,
after which a join completes; the hook event is in the trace. -/
theorem done_precedes_join_return_witness :
    (Start (mkThread 0).fst).doneFired = false ∧ Event.doneE ∈ [Event.doneE] :=
  ⟨rfl,
   done_precedes_join_return (Start (mkThread 0).fst) (Done (Start (mkThread 0).fst))
     (Join (Done (Start (mkThread 0).fst))) [Event.doneE] rfl rfl
     (Trace.cons _ _ _ _ _ (Step.done _ rfl) (Trace.nil _))
     (Step.join _ (Or.inr rfl))⟩

/-- Kinds of storage a cross-thread flag can be declared with. -/
inductive StorageKind where
  | plainBool
  | atomicBool
  | fencedFlag
deriving Repr, DecidableEq

/-- Whether a storage kind gives atomic-or-fenced visibility
semantics. -/
def StorageKind.isAtomicOrFenced : StorageKind → Bool
  | StorageKind.plainBool => false
  | StorageKind.atomicBool => true
  | StorageKind.fencedFlag => true

/-- Embedded from the header (line 199): `bool terminating;` — the
terminating flag is declared as a plain, unsynchronized boolean. -/
def terminatingStorage : StorageKind := StorageKind.plainBool

/-- Embedded from the header (line 200): `bool killed;` — the killed flag
is declared as a plain, unsynchronized boolean. -/
def killedStorage : StorageKind := StorageKind.plainBool

/-- C6 evidence: neither cross-thread flag is declared with atomic or
fenced storage; both are plain booleans, which the specification calls a
correctness bug. -/
theorem cross_thread_flags_declared_plain_bool :
    terminatingStorage.isAtomicOrFenced = false ∧
    killedStorage.isAtomicOrFenced = false := by
  decide

/-- Primitive run-time effects an operation can perform. -/
inductive PrimEffect where
  | flagWrite
  | primitiveAcquire
  | primitiveRelease
  | osForceTerminate
  | heapAlloc
  | blockingWait
  | mutexLock
deriving Repr, DecidableEq

/-- Modelled from the spec: the sequence of primitive effects reachable
from `Kill()` — it sets the two flags and then forcibly terminates the
underlying execution context through a reentrant-safe OS primitive. -/
def killReachableEffects : List PrimEffect :=
  [PrimEffect.flagWrite, PrimEffect.flagWrite, PrimEffect.osForceTerminate]

/-- C7: nothing reachable from `Kill()` allocates on the heap, blocks, or
locks a mutex, and at most one primitive acquire/release pair occurs, so
the kill path is safe in a restricted signal-handling context. -/
theorem kill_path_signal_safe :
    killReachableEffects.count PrimEffect.heapAlloc = 0 ∧
    killReachableEffects.count PrimEffect.blockingWait = 0 ∧
    killReachableEffects.count PrimEffect.mutexLock = 0 ∧
    killReachableEffects.count PrimEffect.primitiveAcquire ≤ 1 ∧
    killReachableEffects.count PrimEffect.primitiveRelease ≤ 1 := by
  decide

/-- Modelled from the spec: `Fmt(template, args...)` writes the formatted
result (`rendered`) into the instance-owned format buffer and returns a
view of that buffer, valid until the next call from the same context. -/
def Fmt (s : BasicThread) (rendered : String) : BasicThread × String :=
  let s' := { s with fmtBuf := rendered }
  (s', s'.fmtBuf)

/-- Modelled from the spec: `Strerror(err)` wraps the OS error-string
lookup (`osStrerror`) into the instance-owned error-string buffer with the
same single-context validity contract as `Fmt`. -/
def Strerror (osStrerror : Int → String) (s : BasicThread) (err : Int) :
    BasicThread × String :=
  let s' := { s with strerrBuf := osStrerror err }
  (s', s'.strerrBuf)

/-- C9: each `Fmt`/`Strerror` call writes its own result into the
instance-owned buffer and returns a view of it; after two consecutive
calls from the same context, the returned view and the buffer reflect
only the second call's result. -/
theorem scratch_buffer_overwrite (s : BasicThread) (m1 m2 : String)
    (osStrerror : Int → String) (e1 e2 : Int) :
    (Fmt s m1).snd = m1 ∧
    (Fmt (Fmt s m1).fst m2).snd = m2 ∧
    (Fmt (Fmt s m1).fst m2).fst.fmtBuf = m2 ∧
    (Strerror osStrerror s e1).snd = osStrerror e1 ∧
    (Strerror osStrerror (Strerror osStrerror s e1).fst e2).snd = osStrerror e2 ∧
    (Strerror osStrerror (Strerror osStrerror s e1).fst e2).fst.strerrBuf = osStrerror e2 :=
  ⟨rfl, rfl, rfl, rfl, rfl, rfl⟩

/-- C10: the accessors `Name()`, `Terminating()` and `Killed()` are pure
reads: each returns the value of exactly one stored field, leaves the
instance unchanged, and repeated calls return the same value and the same
state. -/
theorem accessors_are_pure_reads (s : BasicThread) :
    (Name s).fst = s.name ∧ (Name s).snd = s ∧
    (Terminating s).fst = s.terminating ∧ (Terminating s).snd = s ∧
    (Killed s).fst = s.killed ∧ (Killed s).snd = s ∧
    (Name (Name s).snd).fst = (Name s).fst ∧
    (Terminating (Terminating s).snd).fst = (Terminating s).fst ∧
    (Killed (Killed s).snd).fst = (Killed s).fst :=
  ⟨rfl, rfl, rfl, rfl, rfl, rfl, rfl, rfl, rfl⟩

/-- Value of a little-endian decimal digit list. -/
def ofDecDigits : List Nat → Nat
  | [] => 0
  | d :: ds => d + 10 * ofDecDigits ds

/-- `decDigitsAux` with enough fuel round-trips through
`ofDecDigits`. -/
theorem ofDecDigits_decDigitsAux (fuel : Nat) :
    ∀ n : Nat, n ≤ fuel → ofDecDigits (decDigitsAux fuel n) = n := by
  induction fuel with
  | zero =>
    intro n h
    cases n with
    | zero => rfl
    | succ k => omega
  | succ fuel ih =>
    intro n h
    cases n with
    | zero => rfl
    | succ k =>
      have hdiv : (k + 1) / 10 ≤ fuel := by
        have hlt : (k + 1) / 10 < k + 1 := Nat.div_lt_self (Nat.succ_pos k) (by omega)
        omega
      simp only [decDigitsAux, ofDecDigits, ih _ hdiv]
      omega

/-- The decimal digit list determines the number. -/
theorem decDigits_inj {m n : Nat} (h : decDigits m = decDigits n) : m = n := by
  have hm := ofDecDigits_decDigitsAux m m (Nat.le_refl m)
  have hn := ofDecDigits_decDigitsAux n n (Nat.le_refl n)
  rw [decDigits, decDigits] at h
  rw [← hm, ← hn, h]

/-- Every decimal digit produced by `decDigitsAux` is below ten. -/
theorem decDigitsAux_lt_ten (fuel : Nat) :
    ∀ n : Nat, ∀ d ∈ decDigitsAux fuel n, d < 10 := by
  induction fuel with
  | zero =>
    intro n d hd
    cases n <;> simp [decDigitsAux] at hd
  | succ fuel ih =>
    intro n d hd
    cases n with
    | zero => simp [decDigitsAux] at hd
    | succ k =>
      simp only [decDigitsAux, List.mem_cons] at hd
      cases hd with
      | inl h => omega
      | inr h => exact ih _ d h

/-- `Nat.digitChar` is injective on digits below ten. -/
theorem digitChar_inj_lt_ten :
    ∀ a < 10, ∀ b < 10, Nat.digitChar a = Nat.digitChar b → a = b := by
  decide

/-- Mapping `Nat.digitChar` over lists of digits below ten is
injective. -/
theorem map_digitChar_inj :
    ∀ l1 l2 : List Nat, (∀ d ∈ l1, d < 10) → (∀ d ∈ l2, d < 10) →
      l1.map Nat.digitChar = l2.map Nat.digitChar → l1 = l2
  | [], [], _, _, _ => rfl
  | [], _ :: _, _, _, h => by simp at h
  | _ :: _, [], _, _, h => by simp at h
  | a :: l1, b :: l2, h1, h2, h => by
    simp only [List.map_cons, List.cons.injEq] at h
    have hab : a = b :=
      digitChar_inj_lt_ten a (h1 a (by simp)) b (h2 b (by simp)) h.1
    have htail : l1 = l2 :=
      map_digitChar_inj l1 l2 (fun d hd => h1 d (by simp [hd]))
        (fun d hd => h2 d (by simp [hd])) h.2
    rw [hab, htail]

/-- The decimal string representation is injective. -/
theorem decimalRepr_inj {m n : Nat} (h : decimalRepr m = decimalRepr n) : m = n := by
  rw [decimalRepr, decimalRepr] at h
  have hdata : (decDigits m).reverse.map Nat.digitChar
      = (decDigits n).reverse.map Nat.digitChar := congrArg String.data h
  have hrev : (decDigits m).reverse = (decDigits n).reverse :=
    map_digitChar_inj _ _
      (fun d hd => decDigitsAux_lt_ten m m d (List.mem_reverse.mp hd))
      (fun d hd => decDigitsAux_lt_ten n n d (List.mem_reverse.mp hd)) hdata
  exact decDigits_inj (List.reverse_injective hrev)

/-- The generated default names are injective in the counter value. -/
theorem defaultName_inj {m n : Nat} (h : defaultName m = defaultName n) : m = n := by
  rw [defaultName, defaultName] at h
  have hdata := congrArg String.data h
  rw [String.data_append, String.data_append] at hdata
  have hrepr : (decimalRepr m).data = (decimalRepr n).data :=
    List.append_cancel_left hdata
  have : decimalRepr m = decimalRepr n := by
    cases hm : decimalRepr m with
    | mk dm =>
      cases hn : decimalRepr n with
      | mk dn =>
        rw [hm, hn] at hrepr
        exact congrArg String.mk hrepr
  exact decimalRepr_inj this

/-- The generated default names are never empty. -/
theorem defaultName_ne_empty (c : Nat) : defaultName c ≠ "" := by
  intro h
  have hdata := congrArg String.data h
  rw [defaultName, String.data_append] at hdata
  simp at hdata

/-- C8: two unnamed instances constructed in sequence from the
process-wide counter receive default names that are non-empty and
distinct from each other. -/
theorem default_names_nonempty_distinct (c : Nat) :
    (mkThread c).fst.name ≠ "" ∧
    (mkThread (mkThread c).snd).fst.name ≠ "" ∧
    (mkThread c).fst.name ≠ (mkThread (mkThread c).snd).fst.name := by
  simp only [mkThread]
  refine ⟨defaultName_ne_empty _, defaultName_ne_empty _, ?_⟩
  intro h
  have h2 := defaultName_inj h
  omega

end Threading
